import Mathlib

set_option maxHeartbeats 1000000

/-
Verification development for the helix feed handler.

Part 1 models the MoldUDP protocol session (the sequenced-packet reassembly
layer).  The repository ships only the class interface
(src/nasdaq/moldudp.hh); the body of moldudp_session::parse is not in the
tree, so the behaviour is modelled from the design document, section 4.1.
Part 2 embeds the feature extraction and lookback bookkeeping of
tools/helix-svm/helix-svm.cc, which is present in full.

Bytes are modelled as natural numbers (each meant to be below 256); a
datagram is a list of bytes.  Big-endian multi-byte fields are read
positionally, exactly as the wire format prescribes.
-/

/-- Read a 16-bit big-endian unsigned integer from the first two bytes of a
buffer.  Shorter buffers yield the value of the bytes that are present; all
uses are guarded by length checks. -/
def readU16 : List Nat → Nat
  | b0 :: b1 :: _ => b0 * 256 + b1
  | [b0] => b0 * 256
  | [] => 0

/-- Read a 32-bit big-endian unsigned integer from the first four bytes of a
buffer. -/
def readU32 : List Nat → Nat
  | b0 :: b1 :: b2 :: b3 :: _ => ((b0 * 256 + b1) * 256 + b2) * 256 + b3
  | [b0, b1, b2] => ((b0 * 256 + b1) * 256 + b2) * 256
  | [b0, b1] => (b0 * 256 + b1) * 256 * 256
  | [b0] => b0 * 256 * 256 * 256
  | [] => 0

/-- The two big-endian bytes of a 16-bit value. -/
def encodeU16 (n : Nat) : List Nat := [n / 256 % 256, n % 256]

/-- The four big-endian bytes of a 32-bit value. -/
def encodeU32 (n : Nat) : List Nat :=
  [n / 16777216 % 256, n / 65536 % 256, n / 256 % 256, n % 256]

/-- The 10-byte session identifier of a packet header. -/
def headerSid (p : List Nat) : List Nat := p.take 10

/-- The 32-bit big-endian sequence number of a packet header (bytes 10..13). -/
def headerSeq (p : List Nat) : Nat := readU32 (p.drop 10)

/-- The 16-bit big-endian message count of a packet header (bytes 14..15). -/
def headerCount (p : List Nat) : Nat := readU16 (p.drop 14)

/-- Modelled from the spec: the signalling conditions a parse call can
surface to its caller (design document, sections 4.1 and 7).  The
sink-consumption mismatch condition is omitted because the sink's reported
consumption is not modelled (the wire length is authoritative and the
condition never alters behaviour). -/
inductive Condition where
  | Gap (expected observed : Nat)
  | SessionChanged
  | EndOfSession
  | Truncated
  | Malformed
  deriving Repr, DecidableEq

/-- Modelled from the spec: the observability counters of a session
(duplicates seen, gaps seen, messages forwarded). -/
structure Stats where
  duplicates : Nat
  gaps : Nat
  forwarded : Nat
  deriving Repr, DecidableEq

/-- Modelled from the spec: the per-session state of the protocol session.
The header in the tree declares only a 32-bit sequence counter; the design
document, section 3, names the full state: the next expected sequence
number, the session id of the most recent accepted packet (none before the
first packet is seen), the terminal flag, and the counters. -/
structure SessionState where
  expectedSequence : Nat
  lastSessionId : Option (List Nat)
  terminated : Bool
  stats : Stats
  deriving Repr, DecidableEq

/-- Modelled from the spec: a fresh session starts expecting sequence
number 1, has seen no packet, and is not terminated. -/
def initialSession : SessionState :=
  { expectedSequence := 1, lastSessionId := none, terminated := false,
    stats := { duplicates := 0, gaps := 0, forwarded := 0 } }

/-- Modelled from the spec: the outcome of one parse call: the number of
bytes reported consumed, the ordered list of payload views handed to the
Message Sink, the conditions surfaced to the caller, and the session state
after the call. -/
structure ParseResult where
  consumed : Nat
  sinkCalls : List (List Nat)
  conditions : List Condition
  state : SessionState
  deriving Repr, DecidableEq

/-- Modelled from the spec: read `n` length-delimited message frames from a
buffer.  Each frame is a 16-bit big-endian length followed by that many
payload bytes.  A buffer too short to hold the next length field fails
Truncated; a declared payload length exceeding the remaining buffer fails
Malformed.  On success the frame payloads are returned in order together
with the total byte count of the frames. -/
def parseFrames : Nat → List Nat → Except Condition (List (List Nat) × Nat)
  | 0, _ => Except.ok ([], 0)
  | n + 1, buf =>
    if buf.length < 2 then Except.error Condition.Truncated
    else
      let len := readU16 buf
      let rest := buf.drop 2
      if rest.length < len then Except.error Condition.Malformed
      else
        match parseFrames n (rest.drop len) with
        | Except.error e => Except.error e
        | Except.ok (ps, c) => Except.ok (rest.take len :: ps, 2 + len + c)

/-- Modelled from the spec: a packet triggers a session rollover when a
packet has been seen before and the new packet's session id differs from
the remembered one. -/
def sessionChangeTriggered (st : SessionState) (p : List Nat) : Bool :=
  match st.lastSessionId with
  | none => false
  | some l => decide (headerSid p ≠ l)

/-- Modelled from the spec: the sequence number a packet is compared
against: after a session rollover the packet's own sequence number becomes
the expected one (section 4.1, step 3), otherwise the session's expected
sequence number is used. -/
def effExpected (st : SessionState) (p : List Nat) : Nat :=
  if sessionChangeTriggered st p then headerSeq p else st.expectedSequence

/-- Modelled from the spec: moldudp_session::parse, whose implementation
file is absent from the tree (only the class interface is present).  The
behaviour follows the design document, section 4.1: fail Truncated below 16
bytes; ignore every packet once terminated; detect a session rollover and
surface SessionChanged, treating the packet's own sequence number as the
expected one from then on; then classify by sequence comparison into the
duplicate, gap, heartbeat, end-of-session and normal data paths.  Where the
step-3 sequence reset conflicts with the stated failure-semantics guarantee
that session state is only mutated after full validation of the normal path
(section 7), the guarantee is honoured: a call that fails Truncated or
Malformed returns the session state unchanged, while still surfacing the
rollover condition it observed. -/
def parse (st : SessionState) (p : List Nat) : ParseResult :=
  if p.length < 16 then
    { consumed := 0, sinkCalls := [], conditions := [Condition.Truncated], state := st }
  else if st.terminated then
    { consumed := p.length, sinkCalls := [], conditions := [], state := st }
  else
    let sid := headerSid p
    let seq := headerSeq p
    let count := headerCount p
    let changed := sessionChangeTriggered st p
    let expSeq := effExpected st p
    let chConds : List Condition := if changed then [Condition.SessionChanged] else []
    if seq < expSeq then
      { consumed := p.length, sinkCalls := [], conditions := chConds,
        state := { st with lastSessionId := some sid, stats := { st.stats with duplicates := st.stats.duplicates + 1 } } }
    else if expSeq < seq then
      { consumed := p.length, sinkCalls := [],
        conditions := chConds ++ [Condition.Gap expSeq seq],
        state := { st with lastSessionId := some sid, stats := { st.stats with gaps := st.stats.gaps + 1 } } }
    else if count = 0 then
      { consumed := 16, sinkCalls := [], conditions := chConds,
        state := { st with expectedSequence := expSeq, lastSessionId := some sid } }
    else if count = 65535 then
      { consumed := 16, sinkCalls := [],
        conditions := chConds ++ [Condition.EndOfSession],
        state := { st with expectedSequence := expSeq, terminated := true, lastSessionId := some sid } }
    else
      match parseFrames count (p.drop 16) with
      | Except.error e =>
        { consumed := 0, sinkCalls := [], conditions := chConds ++ [e], state := st }
      | Except.ok (payloads, fb) =>
        { consumed := 16 + fb, sinkCalls := payloads, conditions := chConds,
          state := { expectedSequence := expSeq + count, lastSessionId := some sid, terminated := st.terminated, stats := { st.stats with forwarded := st.stats.forwarded + count } } }

/-- Run parse over a list of datagrams in order, threading the session
state and collecting every payload handed to the Message Sink. -/
def parseAll (st : SessionState) : List (List Nat) → SessionState × List (List Nat)
  | [] => (st, [])
  | p :: ps =>
    let r := parse st p
    let rec_ := parseAll r.state ps
    (rec_.1, r.sinkCalls ++ rec_.2)

/-- A run of datagrams along which no parse call surfaces the session
rollover condition. -/
def noSessionChangeRun (st : SessionState) : List (List Nat) → Bool
  | [] => true
  | p :: ps =>
    !(decide (Condition.SessionChanged ∈ (parse st p).conditions))
      && noSessionChangeRun (parse st p).state ps

/-- The wire bytes of one message frame: a 16-bit big-endian length
followed by the payload. -/
def encodeFrame (payload : List Nat) : List Nat := encodeU16 payload.length ++ payload

/-- The total wire size of a list of frames: two length bytes plus the
payload bytes, per frame. -/
def frameBytes (frames : List (List Nat)) : Nat :=
  (frames.map (fun f => 2 + f.length)).sum

/-- A whole datagram: the 16-byte header followed by the encoded frames. -/
def mkPacket (sid : List Nat) (seq count : Nat) (frames : List (List Nat)) : List Nat :=
  sid ++ encodeU32 seq ++ encodeU16 count ++ (frames.map encodeFrame).flatten

/-- A concrete 10-byte session id used in concrete evaluations. -/
def sidA : List Nat := [0, 0, 0, 0, 0, 0, 0, 0, 0, 0]

/-- A second, distinct concrete 10-byte session id. -/
def sidB : List Nat := [1, 1, 1, 1, 1, 1, 1, 1, 1, 1]

/-- An active session that last accepted a packet of session `sidA` and
expects sequence number 1. -/
def stA : SessionState :=
  { expectedSequence := 1, lastSessionId := some sidA, terminated := false,
    stats := { duplicates := 0, gaps := 0, forwarded := 0 } }

/-- A terminated session that last accepted a packet of session `sidA`. -/
def stT : SessionState :=
  { expectedSequence := 1, lastSessionId := some sidA, terminated := true,
    stats := { duplicates := 0, gaps := 0, forwarded := 0 } }

/-- An active session of `sidA` that expects sequence number 5. -/
def stE5 : SessionState :=
  { expectedSequence := 5, lastSessionId := some sidA, terminated := false,
    stats := { duplicates := 0, gaps := 0, forwarded := 0 } }

/-
Part 2: the helix-svm tool (tools/helix-svm/helix-svm.cc).

The order book is an external collaborator reached through the helix C API;
it is modelled as a structure of its accessor functions.  Prices enter the
feature vector divided by 10000.0; the features are modelled over the
rationals, which preserves every identity the claims are about, since both
members of each compared feature pair are produced by the same sequence of
operations on the same inputs.
-/

/-- The helix order book accessors used by the svm session, gathered into
one structure: per-level ask and bid prices and sizes, the per-level mid
price, and the number of populated ask and bid levels. -/
structure OrderBook where
  ask_price : Nat → Nat
  bid_price : Nat → Nat
  ask_size : Nat → Nat
  bid_size : Nat → Nat
  midprice : Nat → Nat
  ask_levels : Nat
  bid_levels : Nat

/-- The number of order book levels used for feature extraction
(svm_session::nr_levels). -/
def nr_levels : Nat := 5

/-- The look-ahead interval, in events (svm_session::lookahead_interval). -/
def lookahead_interval : Nat := 5

/-- The six features contributed by one book level in svm_session::extract:
ask price, ask size, bid price, bid size, bid-ask spread, and mid price. -/
def levelFeatures (ob : OrderBook) (i : Nat) : List ℚ :=
  let bid_price : ℚ := (ob.bid_price i : ℚ) / 10000
  let ask_price : ℚ := (ob.ask_price i : ℚ) / 10000
  let bid_size : ℚ := (ob.bid_size i : ℚ)
  let ask_size : ℚ := (ob.ask_size i : ℚ)
  let midprice : ℚ := (ob.midprice i : ℚ) / 10000
  [ask_price, ask_size, bid_price, bid_size, ask_price - bid_price, midprice]

/-- The two price-difference features contributed by the adjacent level
pair (i-1, i) in svm_session::extract.  Following the source, all four
local quantities are read from helix_order_book_midprice, so the ask-side
and bid-side differences coincide. -/
def diffFeatures (ob : OrderBook) (i : Nat) : List ℚ :=
  let bid0 : ℚ := (ob.midprice (i - 1) : ℚ) / 10000
  let bid1 : ℚ := (ob.midprice i : ℚ) / 10000
  let ask0 : ℚ := (ob.midprice (i - 1) : ℚ) / 10000
  let ask1 : ℚ := (ob.midprice i : ℚ) / 10000
  [|ask1 - ask0|, |bid1 - bid0|]

/-- svm_session::extract: the per-level features for levels 0..4 followed
by the price-difference features for the level pairs (0,1)..(3,4). -/
def extract (ob : OrderBook) : List ℚ :=
  ((List.range nr_levels).map (levelFeatures ob)).flatten
    ++ ((List.range (nr_levels - 1)).map (fun j => diffFeatures ob (j + 1))).flatten

/-- svm_session::process_ob_event, restricted to its effect on the lookback
buffer (the emitted libsvm line is output, not state).  The buffer holds
(mid price, features) pairs; the list head is the deque front.  The event
is ignored when both sides have fewer than nr_levels levels; the first
qualifying event seeds the buffer; an event whose features equal the front
entry's features is ignored; otherwise the entry is appended at the back,
and once the buffer reaches lookahead_interval entries the front one is
popped (and formatted to the output). -/
def process_ob_event (lb : List (Nat × List ℚ)) (ob : OrderBook) : List (Nat × List ℚ) :=
  if ob.ask_levels < nr_levels ∧ ob.bid_levels < nr_levels then lb
  else
    match lb with
    | [] => [(ob.midprice 0, extract ob)]
    | (_, pf) :: _ =>
      if extract ob = pf then lb
      else
        let lb2 := lb ++ [(ob.midprice 0, extract ob)]
        if lb2.length < lookahead_interval then lb2 else lb2.tail

/-- Reading back the two big-endian bytes of a 16-bit value recovers the
value, whatever bytes follow. -/
theorem readU16_encodeU16 (n : Nat) (h : n < 65536) (rest : List Nat) :
    readU16 (encodeU16 n ++ rest) = n := by
  simp only [encodeU16, List.cons_append, List.nil_append, readU16]
  omega

/-- Reading back the four big-endian bytes of a 32-bit value recovers the
value, whatever bytes follow. -/
theorem readU32_encodeU32 (n : Nat) (h : n < 4294967296) (rest : List Nat) :
    readU32 (encodeU32 n ++ rest) = n := by
  simp only [encodeU32, List.cons_append, List.nil_append, readU32]
  omega

/-- A built datagram is at least as long as its 16-byte header. -/
theorem length_mkPacket (sid : List Nat) (h10 : sid.length = 10)
    (seq count : Nat) (frames : List (List Nat)) :
    (mkPacket sid seq count frames).length
      = 16 + ((frames.map encodeFrame).flatten).length := by
  simp [mkPacket, encodeU32, encodeU16, h10]
  omega

/-- Dropping the header of a built datagram leaves exactly the frame
bytes. -/
theorem drop16_mkPacket (sid : List Nat) (h10 : sid.length = 10)
    (seq count : Nat) (frames : List (List Nat)) :
    (mkPacket sid seq count frames).drop 16 = (frames.map encodeFrame).flatten := by
  have h1 : mkPacket sid seq count frames
      = (sid ++ encodeU32 seq ++ encodeU16 count) ++ (frames.map encodeFrame).flatten := by
    simp [mkPacket, List.append_assoc]
  have h2 : (sid ++ encodeU32 seq ++ encodeU16 count).length = 16 := by
    simp [encodeU32, encodeU16, h10]
  rw [h1, show (16 : Nat) = (sid ++ encodeU32 seq ++ encodeU16 count).length from h2.symm,
    List.drop_left]

/-- The session id field of a built datagram. -/
theorem headerSid_mkPacket (sid : List Nat) (h10 : sid.length = 10)
    (seq count : Nat) (frames : List (List Nat)) :
    headerSid (mkPacket sid seq count frames) = sid := by
  unfold headerSid
  have h1 : mkPacket sid seq count frames
      = sid ++ (encodeU32 seq ++ (encodeU16 count ++ (frames.map encodeFrame).flatten)) := by
    simp [mkPacket, List.append_assoc]
  rw [h1, show (10 : Nat) = sid.length from h10.symm, List.take_left]

/-- The sequence number field of a built datagram. -/
theorem headerSeq_mkPacket (sid : List Nat) (h10 : sid.length = 10)
    (seq count : Nat) (h32 : seq < 4294967296) (frames : List (List Nat)) :
    headerSeq (mkPacket sid seq count frames) = seq := by
  unfold headerSeq
  have h1 : mkPacket sid seq count frames
      = sid ++ (encodeU32 seq ++ (encodeU16 count ++ (frames.map encodeFrame).flatten)) := by
    simp [mkPacket, List.append_assoc]
  rw [h1, show (10 : Nat) = sid.length from h10.symm, List.drop_left]
  exact readU32_encodeU32 seq h32 _

/-- The message count field of a built datagram. -/
theorem headerCount_mkPacket (sid : List Nat) (h10 : sid.length = 10)
    (seq count : Nat) (h16c : count < 65536) (frames : List (List Nat)) :
    headerCount (mkPacket sid seq count frames) = count := by
  unfold headerCount mkPacket
  have h1 : sid ++ encodeU32 seq ++ encodeU16 count ++ (frames.map encodeFrame).flatten
      = (sid ++ encodeU32 seq) ++ (encodeU16 count ++ (frames.map encodeFrame).flatten) := by
    simp [List.append_assoc]
  have h2 : (sid ++ encodeU32 seq).length = 14 := by simp [encodeU32, h10]
  rw [h1, show (14 : Nat) = (sid ++ encodeU32 seq).length from h2.symm, List.drop_left]
  exact readU16_encodeU16 count h16c _

/-- Parsing the encoded frames recovers exactly the frame payloads, in
order, together with their total wire size, whatever bytes follow. -/
theorem parseFrames_encodeFrames (frames : List (List Nat)) (rest : List Nat)
    (h : ∀ f ∈ frames, f.length < 65536) :
    parseFrames frames.length ((frames.map encodeFrame).flatten ++ rest)
      = Except.ok (frames, frameBytes frames) := by
  induction frames generalizing rest with
  | nil => simp [parseFrames, frameBytes]
  | cons f fs ih =>
    have hf : f.length < 65536 := h f (by simp)
    have hfs : ∀ g ∈ fs, g.length < 65536 := fun g hg => h g (by simp [hg])
    have hbuf : ((f :: fs).map encodeFrame).flatten ++ rest
        = (f.length / 256 % 256) :: (f.length % 256)
            :: (f ++ ((fs.map encodeFrame).flatten ++ rest)) := by
      simp [encodeFrame, encodeU16, List.append_assoc]
    rw [show (f :: fs).length = fs.length + 1 from rfl, hbuf]
    simp only [parseFrames, List.length_cons, readU16, List.drop_succ_cons, List.drop_zero]
    rw [if_neg (by omega)]
    rw [show f.length / 256 % 256 * 256 + f.length % 256 = f.length from by omega]
    rw [if_neg (by simp)]
    rw [show (f ++ ((fs.map encodeFrame).flatten ++ rest)).drop f.length
        = (fs.map encodeFrame).flatten ++ rest from List.drop_left f _]
    rw [ih rest hfs,
      show (f ++ ((fs.map encodeFrame).flatten ++ rest)).take f.length = f from
        List.take_left f _]
    simp [frameBytes]

/-- A successful frame parse yields exactly as many payloads as frames were
requested. -/
theorem parseFrames_length (n : Nat) (buf : List Nat) (ps : List (List Nat)) (c : Nat)
    (h : parseFrames n buf = Except.ok (ps, c)) : ps.length = n := by
  induction n generalizing buf ps c with
  | zero =>
    simp only [parseFrames] at h
    cases h
    rfl
  | succ m ih =>
    simp only [parseFrames] at h
    by_cases h2 : buf.length < 2
    · rw [if_pos h2] at h
      cases h
    · rw [if_neg h2] at h
      by_cases h3 : (buf.drop 2).length < readU16 buf
      · rw [if_pos h3] at h
        cases h
      · rw [if_neg h3] at h
        cases hrec : parseFrames m ((buf.drop 2).drop (readU16 buf)) with
        | error e => rw [hrec] at h; cases h
        | ok pr =>
          obtain ⟨ps1, c1⟩ := pr
          rw [hrec] at h
          cases h
          simp [ih _ _ _ hrec]

/-- A datagram below the 16-byte header size fails Truncated and changes
nothing. -/
theorem parse_truncated (st : SessionState) (p : List Nat) (h : p.length < 16) :
    parse st p =
      { consumed := 0, sinkCalls := [], conditions := [Condition.Truncated],
        state := st } := by
  simp [parse, h]

/-- A terminated session ignores every datagram of at least header size. -/
theorem parse_term (st : SessionState) (p : List Nat)
    (h16 : ¬ p.length < 16) (hterm : st.terminated = true) :
    parse st p =
      { consumed := p.length, sinkCalls := [], conditions := [], state := st } := by
  simp [parse, h16, hterm]

/-- The duplicate path: same session, sequence number below the expected
one. -/
theorem parse_stale (st : SessionState) (p : List Nat)
    (h16 : ¬ p.length < 16) (hterm : st.terminated = false)
    (hch : sessionChangeTriggered st p = false)
    (hlt : headerSeq p < st.expectedSequence) :
    parse st p =
      { consumed := p.length, sinkCalls := [], conditions := [],
        state := { st with lastSessionId := some (headerSid p), stats := { st.stats with duplicates := st.stats.duplicates + 1 } } } := by
  simp [parse, h16, hterm, hch, effExpected, hlt]

/-- The gap path: same session, sequence number above the expected one. -/
theorem parse_gap (st : SessionState) (p : List Nat)
    (h16 : ¬ p.length < 16) (hterm : st.terminated = false)
    (hch : sessionChangeTriggered st p = false)
    (hgt : st.expectedSequence < headerSeq p) :
    parse st p =
      { consumed := p.length, sinkCalls := [],
        conditions := [Condition.Gap st.expectedSequence (headerSeq p)],
        state := { st with lastSessionId := some (headerSid p), stats := { st.stats with gaps := st.stats.gaps + 1 } } } := by
  have hnlt : ¬ headerSeq p < st.expectedSequence := by omega
  simp [parse, h16, hterm, hch, effExpected, hgt, hnlt]

/-- The heartbeat path: the effective expected sequence matches and the
count field is zero. -/
theorem parse_heartbeat (st : SessionState) (p : List Nat)
    (h16 : ¬ p.length < 16) (hterm : st.terminated = false)
    (heq : effExpected st p = headerSeq p) (hc0 : headerCount p = 0) :
    parse st p =
      { consumed := 16, sinkCalls := [],
        conditions := if sessionChangeTriggered st p then [Condition.SessionChanged] else [],
        state := { st with expectedSequence := effExpected st p, lastSessionId := some (headerSid p) } } := by
  simp [parse, h16, hterm, heq, hc0]

/-- The end-of-session path: the effective expected sequence matches and
the count field is the tombstone value. -/
theorem parse_tomb (st : SessionState) (p : List Nat)
    (h16 : ¬ p.length < 16) (hterm : st.terminated = false)
    (heq : effExpected st p = headerSeq p) (hcF : headerCount p = 65535) :
    parse st p =
      { consumed := 16, sinkCalls := [],
        conditions := (if sessionChangeTriggered st p then [Condition.SessionChanged] else []) ++ [Condition.EndOfSession],
        state := { st with expectedSequence := effExpected st p, terminated := true, lastSessionId := some (headerSid p) } } := by
  simp [parse, h16, hterm, heq, hcF]

/-- The normal data path, with the frames validating: the payloads are
forwarded and the expected sequence advances by the count. -/
theorem parse_data_ok (st : SessionState) (p : List Nat)
    (payloads : List (List Nat)) (fb : Nat)
    (h16 : ¬ p.length < 16) (hterm : st.terminated = false)
    (heq : effExpected st p = headerSeq p)
    (hc0 : headerCount p ≠ 0) (hcF : headerCount p ≠ 65535)
    (hfr : parseFrames (headerCount p) (p.drop 16) = Except.ok (payloads, fb)) :
    parse st p =
      { consumed := 16 + fb, sinkCalls := payloads,
        conditions := if sessionChangeTriggered st p then [Condition.SessionChanged] else [],
        state := { expectedSequence := effExpected st p + headerCount p, lastSessionId := some (headerSid p), terminated := st.terminated, stats := { st.stats with forwarded := st.stats.forwarded + headerCount p } } } := by
  simp [parse, h16, hterm, heq, hc0, hcF, hfr]

/-- The normal data path, with the frames failing to validate: the error
is surfaced and the session state is unchanged. -/
theorem parse_data_err (st : SessionState) (p : List Nat) (e : Condition)
    (h16 : ¬ p.length < 16) (hterm : st.terminated = false)
    (heq : effExpected st p = headerSeq p)
    (hc0 : headerCount p ≠ 0) (hcF : headerCount p ≠ 65535)
    (hfr : parseFrames (headerCount p) (p.drop 16) = Except.error e) :
    parse st p =
      { consumed := 0, sinkCalls := [],
        conditions := (if sessionChangeTriggered st p then [Condition.SessionChanged] else []) ++ [e],
        state := st } := by
  simp [parse, h16, hterm, heq, hc0, hcF, hfr]

/-- A frame-parse failure is always Truncated or Malformed. -/
theorem parseFrames_error_cases (n : Nat) (buf : List Nat) (e : Condition)
    (h : parseFrames n buf = Except.error e) :
    e = Condition.Truncated ∨ e = Condition.Malformed := by
  induction n generalizing buf with
  | zero => simp [parseFrames] at h
  | succ m ih =>
    simp only [parseFrames] at h
    by_cases h2 : buf.length < 2
    · rw [if_pos h2] at h
      cases h
      exact Or.inl rfl
    · rw [if_neg h2] at h
      by_cases h3 : (buf.drop 2).length < readU16 buf
      · rw [if_pos h3] at h
        cases h
        exact Or.inr rfl
      · rw [if_neg h3] at h
        cases hrec : parseFrames m ((buf.drop 2).drop (readU16 buf)) with
        | error e2 =>
          rw [hrec] at h
          cases h
          exact ih _ hrec
        | ok pr =>
          obtain ⟨a, b⟩ := pr
          rw [hrec] at h
          cases h

/-- On a terminated session every call is a no-op for the sink and the
state, and never surfaces the end-of-session condition again. -/
theorem parse_term_all (st : SessionState) (q : List Nat) (h : st.terminated = true) :
    (parse st q).sinkCalls = [] ∧ (parse st q).state = st
      ∧ Condition.EndOfSession ∉ (parse st q).conditions := by
  by_cases h16 : q.length < 16
  · rw [parse_truncated st q h16]
    simp
  · rw [parse_term st q h16 h]
    simp

/-- Any single call that surfaces no session rollover advances the
expected sequence number by exactly the number of payloads handed to the
sink. -/
theorem parse_advance (st : SessionState) (p : List Nat)
    (h : Condition.SessionChanged ∉ (parse st p).conditions) :
    (parse st p).state.expectedSequence
      = st.expectedSequence + (parse st p).sinkCalls.length := by
  by_cases h16 : p.length < 16
  · rw [parse_truncated st p h16]
    simp
  · cases hterm : st.terminated with
    | true =>
      rw [parse_term st p h16 hterm]
      simp
    | false =>
      cases hch : sessionChangeTriggered st p with
      | true =>
        exfalso
        apply h
        have heq : effExpected st p = headerSeq p := by simp [effExpected, hch]
        by_cases hc0 : headerCount p = 0
        · rw [parse_heartbeat st p h16 hterm heq hc0]
          simp [hch]
        · by_cases hcF : headerCount p = 65535
          · rw [parse_tomb st p h16 hterm heq hcF]
            simp [hch]
          · cases hfr : parseFrames (headerCount p) (p.drop 16) with
            | error e =>
              rw [parse_data_err st p e h16 hterm heq hc0 hcF hfr]
              simp [hch]
            | ok pr =>
              obtain ⟨ps, fb⟩ := pr
              rw [parse_data_ok st p ps fb h16 hterm heq hc0 hcF hfr]
              simp [hch]
      | false =>
        have heff : effExpected st p = st.expectedSequence := by simp [effExpected, hch]
        rcases Nat.lt_trichotomy (headerSeq p) st.expectedSequence with hlt | heq2 | hgt
        · rw [parse_stale st p h16 hterm hch hlt]
          simp
        · have heq : effExpected st p = headerSeq p := by rw [heff, heq2]
          by_cases hc0 : headerCount p = 0
          · rw [parse_heartbeat st p h16 hterm heq hc0]
            simp [heff]
          · by_cases hcF : headerCount p = 65535
            · rw [parse_tomb st p h16 hterm heq hcF]
              simp [heff]
            · cases hfr : parseFrames (headerCount p) (p.drop 16) with
              | error e =>
                rw [parse_data_err st p e h16 hterm heq hc0 hcF hfr]
                simp
              | ok pr =>
                obtain ⟨ps, fb⟩ := pr
                rw [parse_data_ok st p ps fb h16 hterm heq hc0 hcF hfr]
                simp [heff, parseFrames_length _ _ _ _ hfr]
        · rw [parse_gap st p h16 hterm hch hgt]
          simp

/-- A stale call leaves the sequencing situation intact: it consumes the
datagram, forwards nothing, and the next call on the same datagram is
stale again. -/
theorem parse_stale_step (st : SessionState) (p : List Nat)
    (h16 : 16 ≤ p.length) (hch : sessionChangeTriggered st p = false)
    (hlt : headerSeq p < st.expectedSequence) :
    (parse st p).consumed = p.length ∧ (parse st p).sinkCalls = []
      ∧ (parse st p).state.expectedSequence = st.expectedSequence
      ∧ sessionChangeTriggered (parse st p).state p = false := by
  cases hterm : st.terminated with
  | true =>
    rw [parse_term st p (by omega) hterm]
    exact ⟨rfl, rfl, rfl, hch⟩
  | false =>
    rw [parse_stale st p (by omega) hterm hch hlt]
    refine ⟨rfl, rfl, rfl, ?_⟩
    simp [sessionChangeTriggered]

/-- Replaying a stale datagram any number of times forwards nothing and
leaves the expected sequence number where it was. -/
theorem parseAll_replicate_stale (p : List Nat) (h16 : 16 ≤ p.length) :
    ∀ (n : Nat) (st : SessionState), sessionChangeTriggered st p = false →
      headerSeq p < st.expectedSequence →
      (parseAll st (List.replicate n p)).2 = []
        ∧ (parseAll st (List.replicate n p)).1.expectedSequence = st.expectedSequence := by
  intro n
  induction n with
  | zero =>
    intro st _ _
    simp [parseAll]
  | succ m ih =>
    intro st hch hlt
    obtain ⟨hcons, hsink, hexp, hch2⟩ := parse_stale_step st p h16 hch hlt
    have hlt2 : headerSeq p < (parse st p).state.expectedSequence := by
      rw [hexp]
      exact hlt
    obtain ⟨ih1, ih2⟩ := ih (parse st p).state hch2 hlt2
    constructor
    · simp [List.replicate_succ, parseAll, hsink, ih1]
    · simp [List.replicate_succ, parseAll, ih2, hexp]

/-- One order book event never grows the lookback buffer beyond four
entries when it held at most four before. -/
theorem process_ob_event_length (lb : List (Nat × List ℚ)) (ob : OrderBook)
    (h : lb.length ≤ 4) : (process_ob_event lb ob).length ≤ 4 := by
  unfold process_ob_event
  by_cases h1 : ob.ask_levels < nr_levels ∧ ob.bid_levels < nr_levels
  · rw [if_pos h1]
    exact h
  · rw [if_neg h1]
    cases lb with
    | nil => simp
    | cons hd tl =>
      obtain ⟨pm, pf⟩ := hd
      dsimp only
      by_cases h2 : extract ob = pf
      · rw [if_pos h2]
        exact h
      · rw [if_neg h2]
        by_cases h3 : (((pm, pf) :: tl) ++ [(ob.midprice 0, extract ob)]).length < lookahead_interval
        · rw [if_pos h3]
          simp only [lookahead_interval] at h3
          omega
        · rw [if_neg h3]
          rw [List.length_tail]
          have hX : (((pm, pf) :: tl) ++ [(ob.midprice 0, extract ob)]).length
              = ((pm, pf) :: tl).length + 1 := by simp
          rw [hX]
          simp only [List.length_cons] at h ⊢
          omega

/-- Folding order book events over the session keeps the lookback buffer
at four entries or fewer, from any start below the bound. -/
theorem foldl_process_length (obs : List OrderBook) :
    ∀ lb, lb.length ≤ 4 → (obs.foldl process_ob_event lb).length ≤ 4 := by
  induction obs with
  | nil =>
    intro lb h
    simpa [List.foldl]
  | cons ob rest ih =>
    intro lb h
    simp only [List.foldl]
    exact ih _ (process_ob_event_length lb ob h)

/-- Claim C1, amended: provided additionally that the session is not
terminated, a well-formed packet carrying the expected sequence number and
a message count N with 0 < N < 0xFFFF whose N frames are fully present
makes parse return 16 plus the sum over frames of (2 + length), and hands
the Message Sink exactly the N frame payloads, in frame order, each being
exactly the declared payload bytes. -/
theorem C1_normal_path (st : SessionState) (sid : List Nat) (payloads : List (List Nat))
    (h10 : sid.length = 10) (hterm : st.terminated = false)
    (h32 : st.expectedSequence < 4294967296)
    (hpos : 0 < payloads.length) (hlt : payloads.length < 65535)
    (hlens : ∀ f ∈ payloads, f.length < 65536) :
    (parse st (mkPacket sid st.expectedSequence payloads.length payloads)).consumed
        = 16 + frameBytes payloads
      ∧ (parse st (mkPacket sid st.expectedSequence payloads.length payloads)).sinkCalls
        = payloads := by
  set p := mkPacket sid st.expectedSequence payloads.length payloads with hp
  have hseq : headerSeq p = st.expectedSequence :=
    headerSeq_mkPacket sid h10 st.expectedSequence payloads.length h32 payloads
  have hcnt : headerCount p = payloads.length :=
    headerCount_mkPacket sid h10 st.expectedSequence payloads.length (by omega) payloads
  have hdrop : p.drop 16 = (payloads.map encodeFrame).flatten :=
    drop16_mkPacket sid h10 st.expectedSequence payloads.length payloads
  have h16 : ¬ p.length < 16 := by
    rw [hp, length_mkPacket sid h10]
    omega
  have heq : effExpected st p = headerSeq p := by
    unfold effExpected
    cases hc : sessionChangeTriggered st p <;> simp [hseq]
  have hfr : parseFrames (headerCount p) (p.drop 16)
      = Except.ok (payloads, frameBytes payloads) := by
    rw [hcnt, hdrop]
    have h0 := parseFrames_encodeFrames payloads [] hlens
    rwa [List.append_nil] at h0
  rw [parse_data_ok st p payloads (frameBytes payloads) h16 hterm heq
    (by rw [hcnt]; omega) (by rw [hcnt]; omega) hfr]
  exact ⟨rfl, rfl⟩

/-- Claim C1 counterexample: on a terminated session the very same
well-formed, in-sequence, one-frame packet produces zero sink calls, not
one, so the claim fails without the non-termination qualification. -/
theorem C1_counterexample :
    stT.expectedSequence = 1
      ∧ headerSeq (mkPacket sidA 1 1 [[42]]) = 1
      ∧ headerCount (mkPacket sidA 1 1 [[42]]) = 1
      ∧ parseFrames 1 ((mkPacket sidA 1 1 [[42]]).drop 16) = Except.ok ([[42]], 3)
      ∧ (parse stT (mkPacket sidA 1 1 [[42]])).sinkCalls.length = 0 :=
  ⟨rfl, rfl, rfl, rfl, rfl⟩

/-- Claim C1 witness: the amended theorem applied to a concrete two-frame
packet on a live session. -/
theorem C1_witness :
    (sidA.length = 10 ∧ stA.terminated = false ∧ stA.expectedSequence < 4294967296
        ∧ 0 < ([[65, 65], [66, 66]] : List (List Nat)).length
        ∧ ([[65, 65], [66, 66]] : List (List Nat)).length < 65535
        ∧ ∀ f ∈ ([[65, 65], [66, 66]] : List (List Nat)), f.length < 65536)
      ∧ ((parse stA (mkPacket sidA stA.expectedSequence
              ([[65, 65], [66, 66]] : List (List Nat)).length [[65, 65], [66, 66]])).consumed
            = 16 + frameBytes [[65, 65], [66, 66]]
          ∧ (parse stA (mkPacket sidA stA.expectedSequence
              ([[65, 65], [66, 66]] : List (List Nat)).length [[65, 65], [66, 66]])).sinkCalls
            = [[65, 65], [66, 66]]) :=
  ⟨⟨by decide, by decide, by decide, by decide, by decide, by decide⟩,
    C1_normal_path stA sidA [[65, 65], [66, 66]]
      (by decide) (by decide) (by decide) (by decide) (by decide) (by decide)⟩

/-- Claim C2, amended: provided additionally that the session is not
terminated and the packet does not trigger a session rollover, a packet
whose sequence number exceeds the expected one yields zero sink calls,
leaves the expected sequence unchanged, and surfaces a Gap condition
carrying the expected and observed sequence numbers. -/
theorem C2_gap_path (st : SessionState) (p : List Nat)
    (h16 : 16 ≤ p.length) (hterm : st.terminated = false)
    (hch : sessionChangeTriggered st p = false)
    (hgt : st.expectedSequence < headerSeq p) :
    (parse st p).sinkCalls = []
      ∧ (parse st p).state.expectedSequence = st.expectedSequence
      ∧ Condition.Gap st.expectedSequence (headerSeq p) ∈ (parse st p).conditions := by
  rw [parse_gap st p (by omega) hterm hch hgt]
  refine ⟨rfl, rfl, by simp⟩

/-- Claim C2 counterexample: a packet whose sequence number exceeds the
expected one but which also changes the session id is forwarded to the
sink (after the rollover reset) and advances the expected sequence, so the
claim fails without the same-session qualification. -/
theorem C2_counterexample :
    stA.expectedSequence < headerSeq (mkPacket sidB 5 1 [[7]])
      ∧ (parse stA (mkPacket sidB 5 1 [[7]])).sinkCalls = [[7]]
      ∧ (parse stA (mkPacket sidB 5 1 [[7]])).sinkCalls ≠ []
      ∧ (parse stA (mkPacket sidB 5 1 [[7]])).state.expectedSequence ≠ stA.expectedSequence :=
  ⟨by decide, by decide, by decide, by decide⟩

/-- Claim C2 witness: the amended theorem applied to a concrete gapped
heartbeat-free packet. -/
theorem C2_witness :
    (16 ≤ (mkPacket sidA 7 1 [[8]]).length ∧ stE5.terminated = false
        ∧ sessionChangeTriggered stE5 (mkPacket sidA 7 1 [[8]]) = false
        ∧ stE5.expectedSequence < headerSeq (mkPacket sidA 7 1 [[8]]))
      ∧ ((parse stE5 (mkPacket sidA 7 1 [[8]])).sinkCalls = []
          ∧ (parse stE5 (mkPacket sidA 7 1 [[8]])).state.expectedSequence = stE5.expectedSequence
          ∧ Condition.Gap stE5.expectedSequence (headerSeq (mkPacket sidA 7 1 [[8]]))
              ∈ (parse stE5 (mkPacket sidA 7 1 [[8]])).conditions) :=
  ⟨⟨by decide, by decide, by decide, by decide⟩,
    C2_gap_path stE5 (mkPacket sidA 7 1 [[8]]) (by decide) (by decide) (by decide) (by decide)⟩

/-- Claim C3, amended: provided additionally that the packet does not
trigger a session rollover, a packet whose sequence number is below the
expected one is consumed whole, produces zero sink calls and leaves the
expected sequence unchanged, and replaying it any number of times never
invokes the sink and never moves the expected sequence. -/
theorem C3_stale_path (st : SessionState) (p : List Nat)
    (h16 : 16 ≤ p.length) (hch : sessionChangeTriggered st p = false)
    (hlt : headerSeq p < st.expectedSequence) :
    (parse st p).consumed = p.length
      ∧ (parse st p).sinkCalls = []
      ∧ (parse st p).state.expectedSequence = st.expectedSequence
      ∧ ∀ n : Nat, (parseAll st (List.replicate n p)).2 = []
          ∧ (parseAll st (List.replicate n p)).1.expectedSequence = st.expectedSequence := by
  obtain ⟨h1, h2, h3, _⟩ := parse_stale_step st p h16 hch hlt
  exact ⟨h1, h2, h3, fun n => parseAll_replicate_stale p h16 n st hch hlt⟩

/-- Claim C3 counterexample: a packet whose sequence number is below the
expected one but which also changes the session id is forwarded to the
sink (after the rollover reset), so the claim fails without the
same-session qualification. -/
theorem C3_counterexample :
    headerSeq (mkPacket sidB 0 1 [[9]]) < stA.expectedSequence
      ∧ (parse stA (mkPacket sidB 0 1 [[9]])).sinkCalls = [[9]]
      ∧ (parse stA (mkPacket sidB 0 1 [[9]])).sinkCalls ≠ [] :=
  ⟨by decide, by decide, by decide⟩

/-- Claim C3 witness: the amended theorem applied to a concrete stale
packet, replayed three times. -/
theorem C3_witness :
    (16 ≤ (mkPacket sidA 3 1 [[9]]).length
        ∧ sessionChangeTriggered stE5 (mkPacket sidA 3 1 [[9]]) = false
        ∧ headerSeq (mkPacket sidA 3 1 [[9]]) < stE5.expectedSequence)
      ∧ (parse stE5 (mkPacket sidA 3 1 [[9]])).consumed = (mkPacket sidA 3 1 [[9]]).length
      ∧ (parse stE5 (mkPacket sidA 3 1 [[9]])).sinkCalls = []
      ∧ (parse stE5 (mkPacket sidA 3 1 [[9]])).state.expectedSequence = stE5.expectedSequence
      ∧ (parseAll stE5 (List.replicate 3 (mkPacket sidA 3 1 [[9]]))).2 = []
      ∧ (parseAll stE5 (List.replicate 3 (mkPacket sidA 3 1 [[9]]))).1.expectedSequence
          = stE5.expectedSequence :=
  ⟨⟨by decide, by decide, by decide⟩,
    (C3_stale_path stE5 (mkPacket sidA 3 1 [[9]]) (by decide) (by decide) (by decide)).1,
    (C3_stale_path stE5 (mkPacket sidA 3 1 [[9]]) (by decide) (by decide) (by decide)).2.1,
    (C3_stale_path stE5 (mkPacket sidA 3 1 [[9]]) (by decide) (by decide) (by decide)).2.2.1,
    ((C3_stale_path stE5 (mkPacket sidA 3 1 [[9]]) (by decide) (by decide) (by decide)).2.2.2 3).1,
    ((C3_stale_path stE5 (mkPacket sidA 3 1 [[9]]) (by decide) (by decide) (by decide)).2.2.2 3).2⟩

/-- Claim C4, amended: an end-of-session packet accepted at the expected
sequence number on a live, same-session call terminates the session, with
zero sink calls and the end-of-session condition surfaced, and the
terminated state is absorbing: every subsequent call on the resulting
state makes zero sink calls, changes nothing, and never surfaces
end-of-session again. -/
theorem C4_end_of_session (st : SessionState) (p : List Nat)
    (h16 : 16 ≤ p.length) (hterm : st.terminated = false)
    (hch : sessionChangeTriggered st p = false)
    (heqs : headerSeq p = st.expectedSequence)
    (hcF : headerCount p = 65535) :
    (parse st p).state.terminated = true
      ∧ (parse st p).sinkCalls = []
      ∧ Condition.EndOfSession ∈ (parse st p).conditions
      ∧ ∀ q : List Nat, (parse (parse st p).state q).sinkCalls = []
          ∧ (parse (parse st p).state q).state = (parse st p).state
          ∧ Condition.EndOfSession ∉ (parse (parse st p).state q).conditions := by
  have heq : effExpected st p = headerSeq p := by simp [effExpected, hch, heqs]
  rw [parse_tomb st p (by omega) hterm heq hcF]
  exact ⟨rfl, rfl, by simp, fun q => parse_term_all _ q rfl⟩

/-- Claim C4 counterexample: an end-of-session packet arriving ahead of
the expected sequence number takes the gap path and does not terminate the
session; a later in-sequence data packet still reaches the sink, so the
claim fails for tombstones processed out of sequence. -/
theorem C4_counterexample :
    headerCount (mkPacket sidA 5 65535 []) = 65535
      ∧ (parse stA (mkPacket sidA 5 65535 [])).state.terminated = false
      ∧ (parse (parse stA (mkPacket sidA 5 65535 [])).state (mkPacket sidA 1 1 [[3]])).sinkCalls
          = [[3]] :=
  ⟨by decide, by decide, by decide⟩

/-- Claim C4 witness: the amended theorem applied to a concrete
in-sequence tombstone, with one concrete subsequent packet. -/
theorem C4_witness :
    (16 ≤ (mkPacket sidA 1 65535 []).length ∧ stA.terminated = false
        ∧ sessionChangeTriggered stA (mkPacket sidA 1 65535 []) = false
        ∧ headerSeq (mkPacket sidA 1 65535 []) = stA.expectedSequence
        ∧ headerCount (mkPacket sidA 1 65535 []) = 65535)
      ∧ (parse stA (mkPacket sidA 1 65535 [])).state.terminated = true
      ∧ (parse stA (mkPacket sidA 1 65535 [])).sinkCalls = []
      ∧ Condition.EndOfSession ∈ (parse stA (mkPacket sidA 1 65535 [])).conditions
      ∧ (parse (parse stA (mkPacket sidA 1 65535 [])).state (mkPacket sidB 2 1 [[7]])).sinkCalls = []
      ∧ (parse (parse stA (mkPacket sidA 1 65535 [])).state (mkPacket sidB 2 1 [[7]])).state
          = (parse stA (mkPacket sidA 1 65535 [])).state
      ∧ Condition.EndOfSession
          ∉ (parse (parse stA (mkPacket sidA 1 65535 [])).state (mkPacket sidB 2 1 [[7]])).conditions :=
  ⟨⟨by decide, by decide, by decide, by decide, by decide⟩,
    (C4_end_of_session stA (mkPacket sidA 1 65535 [])
      (by decide) (by decide) (by decide) (by decide) (by decide)).1,
    (C4_end_of_session stA (mkPacket sidA 1 65535 [])
      (by decide) (by decide) (by decide) (by decide) (by decide)).2.1,
    (C4_end_of_session stA (mkPacket sidA 1 65535 [])
      (by decide) (by decide) (by decide) (by decide) (by decide)).2.2.1,
    ((C4_end_of_session stA (mkPacket sidA 1 65535 [])
      (by decide) (by decide) (by decide) (by decide) (by decide)).2.2.2 (mkPacket sidB 2 1 [[7]])).1,
    ((C4_end_of_session stA (mkPacket sidA 1 65535 [])
      (by decide) (by decide) (by decide) (by decide) (by decide)).2.2.2 (mkPacket sidB 2 1 [[7]])).2.1,
    ((C4_end_of_session stA (mkPacket sidA 1 65535 [])
      (by decide) (by decide) (by decide) (by decide) (by decide)).2.2.2 (mkPacket sidB 2 1 [[7]])).2.2⟩

/-- Claim C5, amended: across any run of parse calls in which no call
surfaces the session rollover condition, the expected sequence number
advances by exactly the total number of payloads forwarded to the sink
(stale, gapped, heartbeat, end-of-session and dropped packets contribute
nothing; each accepted data packet contributes its message count); a call
that does surface a rollover instead resets the expected sequence to that
packet's sequence number before advancing. -/
theorem C5_sequence_advance (st : SessionState) (ps : List (List Nat))
    (h : noSessionChangeRun st ps = true) :
    (parseAll st ps).1.expectedSequence
      = st.expectedSequence + (parseAll st ps).2.length := by
  induction ps generalizing st with
  | nil => simp [parseAll]
  | cons p rest ih =>
    simp only [noSessionChangeRun, Bool.and_eq_true, Bool.not_eq_true',
      decide_eq_false_iff_not] at h
    obtain ⟨h1, h2⟩ := h
    simp only [parseAll, List.length_append]
    rw [ih (parse st p).state h2, parse_advance st p h1]
    omega

/-- Claim C5 counterexample: a heartbeat packet arriving with a changed
session id moves the expected sequence number (to its own sequence number)
while forwarding nothing, so the unqualified claim fails. -/
theorem C5_counterexample :
    headerCount (mkPacket sidB 100 0 []) = 0
      ∧ (parse stA (mkPacket sidB 100 0 [])).sinkCalls.length = 0
      ∧ (parse stA (mkPacket sidB 100 0 [])).state.expectedSequence ≠ stA.expectedSequence := by
  decide

/-- Claim C5 witness: the amended theorem applied to a concrete rollover-free
two-packet run forwarding three payloads. -/
theorem C5_witness :
    noSessionChangeRun initialSession
        [mkPacket sidA 1 2 [[65, 65], [66, 66]], mkPacket sidA 3 1 [[67]]] = true
      ∧ (parseAll initialSession
            [mkPacket sidA 1 2 [[65, 65], [66, 66]], mkPacket sidA 3 1 [[67]]]).1.expectedSequence
        = initialSession.expectedSequence
          + (parseAll initialSession
              [mkPacket sidA 1 2 [[65, 65], [66, 66]], mkPacket sidA 3 1 [[67]]]).2.length :=
  ⟨by decide, C5_sequence_advance initialSession
    [mkPacket sidA 1 2 [[65, 65], [66, 66]], mkPacket sidA 3 1 [[67]]] (by decide)⟩

/-- Claim C6, amended: on a live session, a packet whose session id
differs from the last seen one surfaces the session rollover condition,
and, provided the call does not fail Truncated or Malformed, the expected
sequence is reset to the packet's own sequence number and processing
continues normally from it (so it ends at that sequence number plus the
number of payloads this packet forwarded); a call that fails validation
leaves the expected sequence unchanged. -/
theorem C6_session_change (st : SessionState) (p : List Nat)
    (h16 : 16 ≤ p.length) (hterm : st.terminated = false)
    (hch : sessionChangeTriggered st p = true)
    (hnt : Condition.Truncated ∉ (parse st p).conditions)
    (hnm : Condition.Malformed ∉ (parse st p).conditions) :
    Condition.SessionChanged ∈ (parse st p).conditions
      ∧ (parse st p).state.expectedSequence
        = headerSeq p + (parse st p).sinkCalls.length := by
  have heq : effExpected st p = headerSeq p := by simp [effExpected, hch]
  by_cases hc0 : headerCount p = 0
  · rw [parse_heartbeat st p (by omega) hterm heq hc0]
    exact ⟨by simp [hch], by simp [heq]⟩
  · by_cases hcF : headerCount p = 65535
    · rw [parse_tomb st p (by omega) hterm heq hcF]
      exact ⟨by simp [hch], by simp [heq]⟩
    · cases hfr : parseFrames (headerCount p) (p.drop 16) with
      | error e =>
        exfalso
        rcases parseFrames_error_cases _ _ _ hfr with he | he
        · apply hnt
          rw [parse_data_err st p e (by omega) hterm heq hc0 hcF hfr, he]
          simp
        · apply hnm
          rw [parse_data_err st p e (by omega) hterm heq hc0 hcF hfr, he]
          simp
      | ok pr =>
        obtain ⟨ps, fb⟩ := pr
        rw [parse_data_ok st p ps fb (by omega) hterm heq hc0 hcF hfr]
        exact ⟨by simp [hch], by simp [heq, parseFrames_length _ _ _ _ hfr]⟩

/-- Claim C6 counterexample: a session-changing packet whose single frame
fails validation surfaces the rollover but does not reset the expected
sequence (state is only committed after full validation), so the
unconditional reset in the claim fails. -/
theorem C6_counterexample :
    sessionChangeTriggered stA (sidB ++ encodeU32 50 ++ encodeU16 1 ++ [0, 5]) = true
      ∧ 16 ≤ (sidB ++ encodeU32 50 ++ encodeU16 1 ++ [0, 5]).length
      ∧ headerSeq (sidB ++ encodeU32 50 ++ encodeU16 1 ++ [0, 5]) = 50
      ∧ Condition.SessionChanged
          ∈ (parse stA (sidB ++ encodeU32 50 ++ encodeU16 1 ++ [0, 5])).conditions
      ∧ (parse stA (sidB ++ encodeU32 50 ++ encodeU16 1 ++ [0, 5])).state.expectedSequence = 1
      ∧ (parse stA (sidB ++ encodeU32 50 ++ encodeU16 1 ++ [0, 5])).state.expectedSequence
          ≠ headerSeq (sidB ++ encodeU32 50 ++ encodeU16 1 ++ [0, 5]) := by
  decide

/-- Claim C6 witness: the amended theorem applied to a concrete
session-changing heartbeat. -/
theorem C6_witness :
    (16 ≤ (mkPacket sidB 100 0 []).length ∧ stA.terminated = false
        ∧ sessionChangeTriggered stA (mkPacket sidB 100 0 []) = true
        ∧ Condition.Truncated ∉ (parse stA (mkPacket sidB 100 0 [])).conditions
        ∧ Condition.Malformed ∉ (parse stA (mkPacket sidB 100 0 [])).conditions)
      ∧ (Condition.SessionChanged ∈ (parse stA (mkPacket sidB 100 0 [])).conditions
          ∧ (parse stA (mkPacket sidB 100 0 [])).state.expectedSequence
            = headerSeq (mkPacket sidB 100 0 [])
              + (parse stA (mkPacket sidB 100 0 [])).sinkCalls.length) :=
  ⟨⟨by decide, by decide, by decide, by decide, by decide⟩,
    C6_session_change stA (mkPacket sidB 100 0 [])
      (by decide) (by decide) (by decide) (by decide) (by decide)⟩

/-- Claim C7, amended: on a packet taken on the normal data path (live
session, effective expected sequence equal to the packet's, count strictly
between 0 and 0xFFFF) in which a frame's declared length exceeds the
remaining buffer, parse surfaces the Malformed condition to the caller,
leaves the whole session state unchanged, and makes no sink calls. -/
theorem C7_malformed_path (st : SessionState) (p : List Nat)
    (h16 : 16 ≤ p.length) (hterm : st.terminated = false)
    (heq : effExpected st p = headerSeq p)
    (hc0 : headerCount p ≠ 0) (hcF : headerCount p ≠ 65535)
    (hmal : parseFrames (headerCount p) (p.drop 16) = Except.error Condition.Malformed) :
    Condition.Malformed ∈ (parse st p).conditions
      ∧ (parse st p).state = st
      ∧ (parse st p).sinkCalls = [] := by
  rw [parse_data_err st p Condition.Malformed (by omega) hterm heq hc0 hcF hmal]
  exact ⟨by simp, rfl, rfl⟩

/-- Claim C7 counterexample: a stale packet (sequence number below the
expected one) whose frame declares more bytes than remain is handled on
the duplicate path: it does not fail Malformed and is consumed whole, so
the claim fails for packets outside the normal data path. -/
theorem C7_counterexample :
    headerCount (sidA ++ encodeU32 3 ++ encodeU16 1 ++ [0, 5]) = 1
      ∧ parseFrames 1 ((sidA ++ encodeU32 3 ++ encodeU16 1 ++ [0, 5]).drop 16)
          = Except.error Condition.Malformed
      ∧ headerSeq (sidA ++ encodeU32 3 ++ encodeU16 1 ++ [0, 5]) < stE5.expectedSequence
      ∧ Condition.Malformed
          ∉ (parse stE5 (sidA ++ encodeU32 3 ++ encodeU16 1 ++ [0, 5])).conditions
      ∧ (parse stE5 (sidA ++ encodeU32 3 ++ encodeU16 1 ++ [0, 5])).consumed
          = (sidA ++ encodeU32 3 ++ encodeU16 1 ++ [0, 5]).length :=
  ⟨rfl, rfl, by decide, by decide, rfl⟩

/-- Claim C7 witness: the amended theorem applied to a concrete
in-sequence packet whose single frame declares five payload bytes while
none remain. -/
theorem C7_witness :
    (16 ≤ (sidA ++ encodeU32 1 ++ encodeU16 1 ++ [0, 5]).length
        ∧ stA.terminated = false
        ∧ effExpected stA (sidA ++ encodeU32 1 ++ encodeU16 1 ++ [0, 5])
            = headerSeq (sidA ++ encodeU32 1 ++ encodeU16 1 ++ [0, 5])
        ∧ headerCount (sidA ++ encodeU32 1 ++ encodeU16 1 ++ [0, 5]) ≠ 0
        ∧ headerCount (sidA ++ encodeU32 1 ++ encodeU16 1 ++ [0, 5]) ≠ 65535
        ∧ parseFrames (headerCount (sidA ++ encodeU32 1 ++ encodeU16 1 ++ [0, 5]))
            ((sidA ++ encodeU32 1 ++ encodeU16 1 ++ [0, 5]).drop 16)
          = Except.error Condition.Malformed)
      ∧ (Condition.Malformed
            ∈ (parse stA (sidA ++ encodeU32 1 ++ encodeU16 1 ++ [0, 5])).conditions
          ∧ (parse stA (sidA ++ encodeU32 1 ++ encodeU16 1 ++ [0, 5])).state = stA
          ∧ (parse stA (sidA ++ encodeU32 1 ++ encodeU16 1 ++ [0, 5])).sinkCalls = []) :=
  ⟨⟨by decide, by decide, by decide, by decide, by decide, rfl⟩,
    C7_malformed_path stA (sidA ++ encodeU32 1 ++ encodeU16 1 ++ [0, 5])
      (by decide) (by decide) (by decide) (by decide) (by decide) rfl⟩

/-- Claim C8: an input of fewer than 16 bytes fails with the Truncated
condition, consumes nothing, makes no sink calls, and leaves all session
state unchanged. -/
theorem C8_truncated_path (st : SessionState) (p : List Nat) (h : p.length < 16) :
    Condition.Truncated ∈ (parse st p).conditions
      ∧ (parse st p).consumed = 0
      ∧ (parse st p).sinkCalls = []
      ∧ (parse st p).state = st := by
  rw [parse_truncated st p h]
  exact ⟨by simp, rfl, rfl, rfl⟩

/-- Claim C8 witness: the theorem applied to a concrete three-byte
input. -/
theorem C8_witness :
    ([1, 2, 3] : List Nat).length < 16
      ∧ (Condition.Truncated ∈ (parse stA [1, 2, 3]).conditions
          ∧ (parse stA [1, 2, 3]).consumed = 0
          ∧ (parse stA [1, 2, 3]).sinkCalls = []
          ∧ (parse stA [1, 2, 3]).state = stA) :=
  ⟨by decide, C8_truncated_path stA [1, 2, 3] (by decide)⟩

/-- Claim C9: the extract feature vector has 30 per-level entries followed
by four pairs of price-difference entries, and within each pair the two
entries are equal, both being computed from the mid price at adjacent
levels rather than from separate ask and bid prices. -/
theorem C9_price_diff_pairs (ob : OrderBook) :
    (extract ob).length = 38
      ∧ (extract ob)[30]? = (extract ob)[31]?
      ∧ (extract ob)[32]? = (extract ob)[33]?
      ∧ (extract ob)[34]? = (extract ob)[35]?
      ∧ (extract ob)[36]? = (extract ob)[37]? :=
  ⟨rfl, rfl, rfl, rfl, rfl⟩

/-- Claim C10: processing any list of order book events from an empty
lookback buffer leaves the buffer with at most lookahead_interval - 1 = 4
entries: each call appends at most one entry and pops the front when the
buffer reaches lookahead_interval entries. -/
theorem C10_lookback_bounded (obs : List OrderBook) :
    (obs.foldl process_ob_event []).length ≤ lookahead_interval - 1 := by
  have h := foldl_process_length obs [] (by simp)
  simpa [lookahead_interval] using h
